import Mathlib

/-!
Verification development for the Automated Book Publication Workflow
repository (src/db.py, src/main.py, src/ai_agents.py).

The embedding models:
* `ContentDatabase` (src/db.py): four ChromaDB collections holding
  (id, document, metadata) records, with the store / lookup / filter /
  delete / history operations translated line by line.
* `_human_review_loop` (src/main.py:174-260): the bounded human-in-the-loop
  review state machine, one `Decision` consumed per pass of the `while`.
* Step 5 of `run_workflow` (src/main.py:150-172): the try/except around
  `store_final_version`.

Modelling conventions:
* `uuid.uuid4()` ids are abstracted as natural numbers issued by a monotone
  counter (`nextId`); distinct calls never collide, which the counter makes
  explicit through the `ContentDatabase.wf` invariant.
* Wall-clock `timestamp` metadata and the `full_data` / `full_review` JSON
  dumps are not modelled: no query in the repository filters, orders or
  branches on them.
* ChromaDB behaviour used by the code and modelled here: `add` appends a
  record; `get(ids=[x])` returns the record with id `x` or empty lists;
  `get(where={k: v})` returns records whose metadata field `k` equals `v`,
  in stored order; `delete(ids=[x])` removes matching records and does not
  raise when the id is absent; `query` ranks by embedding distance, which is
  external to the repository and abstracted as stored order.
-/

namespace BookPublisher

/-- Metadata values stored alongside a document. ChromaDB metadata fields in
this codebase are strings and numbers; document ids (uuid strings in Python)
are abstracted as naturals. -/
inductive MetaVal where
  | str (s : String)
  | nat (n : Nat)
deriving DecidableEq, Repr

/-- One persisted record of a ChromaDB collection, as passed to
`collection.add(documents=[...], metadatas=[...], ids=[...])`:
an id, the primary text document, and a flat metadata mapping. -/
structure Record where
  id : Nat
  document : String
  metadata : List (String × MetaVal)
deriving DecidableEq, Repr

/-- Lean model of `ContentDatabase` (src/db.py:19-30): the four collections
created in `__init__`, plus the fresh-id counter abstracting `uuid.uuid4()`. -/
structure ContentDatabase where
  original_content : List Record
  ai_generated : List Record
  reviews : List Record
  final_versions : List Record
  nextId : Nat
deriving DecidableEq, Repr

def ContentDatabase.empty : ContentDatabase :=
  { original_content := [], ai_generated := [], reviews := [],
    final_versions := [], nextId := 0 }

/-- Every id stored anywhere in the database. -/
def ContentDatabase.allIds (db : ContentDatabase) : List Nat :=
  (db.original_content ++ db.ai_generated ++ db.reviews ++ db.final_versions).map Record.id

/-- Well-formedness of the uuid abstraction: every stored id was issued by the
counter, so the next generated id is fresh. -/
def ContentDatabase.wf (db : ContentDatabase) : Prop :=
  ∀ i ∈ db.allIds, i < db.nextId

instance (db : ContentDatabase) : Decidable db.wf := by
  unfold ContentDatabase.wf; infer_instance

/-- Input to `store_original_content`: the fields of the scraped
`content_data` dictionary that the function reads (src/db.py:45-55). -/
structure ContentData where
  url : String
  title : String
  text_content : String
  screenshot_path : String
deriving DecidableEq, Repr

/-- Lean model of `ContentDatabase.store_original_content` (src/db.py:32-64):
a fresh id, metadata assembled from `content_data`, and the text content added
to the `original_content` collection. Returns the content id and the updated
database. -/
def ContentDatabase.store_original_content (db : ContentDatabase)
    (content_data : ContentData) : Nat × ContentDatabase :=
  let content_id := db.nextId
  let metadata : List (String × MetaVal) :=
    [("url", .str content_data.url),
     ("title", .str content_data.title),
     ("screenshot_path", .str content_data.screenshot_path),
     ("content_type", .str "original")]
  (content_id,
   { db with
       original_content :=
         db.original_content ++ [⟨content_id, content_data.text_content, metadata⟩],
       nextId := db.nextId + 1 })

/-- Lean model of `ContentDatabase.store_ai_generated_content`
(src/db.py:66-99). The Python default `version=1` is passed explicitly by
callers of this model. -/
def ContentDatabase.store_ai_generated_content (db : ContentDatabase)
    (original_id : Nat) (content : String) (style : String) (tone : String)
    (version : Nat) : Nat × ContentDatabase :=
  let content_id := db.nextId
  let metadata : List (String × MetaVal) :=
    [("original_id", .nat original_id),
     ("style", .str style),
     ("tone", .str tone),
     ("version", .nat version),
     ("content_type", .str "ai_generated")]
  (content_id,
   { db with
       ai_generated := db.ai_generated ++ [⟨content_id, content, metadata⟩],
       nextId := db.nextId + 1 })

/-- Fields of the `review_data` dictionary read by `store_review`
(src/db.py:114-126). `summary` is `none` when the key is absent, in which
case the stored document falls back to `"Review completed"`. -/
structure ReviewData where
  overall_score : Nat
  grammar_score : Nat
  style_score : Nat
  engagement_score : Nat
  summary : Option String
deriving DecidableEq, Repr

/-- Lean model of `ContentDatabase.store_review` (src/db.py:101-135). The
review is stored against `content_id` — whatever id the caller passes; the
lineage field in its metadata is exactly that id. -/
def ContentDatabase.store_review (db : ContentDatabase) (content_id : Nat)
    (review_data : ReviewData) : Nat × ContentDatabase :=
  let review_id := db.nextId
  let metadata : List (String × MetaVal) :=
    [("content_id", .nat content_id),
     ("overall_score", .nat review_data.overall_score),
     ("grammar_score", .nat review_data.grammar_score),
     ("style_score", .nat review_data.style_score),
     ("engagement_score", .nat review_data.engagement_score),
     ("content_type", .str "review")]
  let review_doc := review_data.summary.getD "Review completed"
  (review_id,
   { db with
       reviews := db.reviews ++ [⟨review_id, review_doc, metadata⟩],
       nextId := db.nextId + 1 })

/-- Lean model of `ContentDatabase.store_final_version` (src/db.py:137-167).
`requirements` stands for the already-serialized `json.dumps(requirements)`
string; `none` models the Python `None` default, stored as `""`. -/
def ContentDatabase.store_final_version (db : ContentDatabase)
    (content_id : Nat) (final_content : String) (requirements : Option String) :
    Nat × ContentDatabase :=
  let final_id := db.nextId
  let metadata : List (String × MetaVal) :=
    [("content_id", .nat content_id),
     ("requirements", .str (requirements.getD "")),
     ("content_type", .str "final_version"),
     ("status", .str "published")]
  (final_id,
   { db with
       final_versions := db.final_versions ++ [⟨final_id, final_content, metadata⟩],
       nextId := db.nextId + 1 })

/-- The four collection attribute names of `ContentDatabase`. -/
def collectionNames : List String :=
  ["original_content", "ai_generated", "reviews", "final_versions"]

/-- Instance attributes of the Python `ContentDatabase` object that are not
collections: `db_path`, `client`, and the bound methods. `getattr` finds
them, they are truthy, and calling `.get` / `.query` / `.delete` on them
raises `AttributeError`, which the surrounding `try` blocks catch. -/
def otherAttrNames : List String :=
  ["db_path", "client", "store_original_content", "store_ai_generated_content",
   "store_review", "store_final_version", "get_content_by_id", "search_content",
   "get_content_history", "delete_content"]

/-- Names for the four collections. -/
inductive PartName where
  | original
  | aiGen
  | revs
  | finals
deriving DecidableEq, Repr

/-- Outcome of `getattr(self, collection_name, None)` (src/db.py:180, 211, 318):
one of the four collection attributes; some other (truthy, non-collection)
attribute of the instance; or no such attribute, in which case `getattr`
yields `None` and the `if not collection` guard fires. -/
inductive Attr where
  | coll (p : PartName)
  | nonColl
  | missing
deriving DecidableEq, Repr

/-- Lean model of the attribute lookup used to select a collection by name. -/
def getattr_collection (name : String) : Attr :=
  if name = "original_content" then .coll .original
  else if name = "ai_generated" then .coll .aiGen
  else if name = "reviews" then .coll .revs
  else if name = "final_versions" then .coll .finals
  else if name ∈ otherAttrNames then .nonColl
  else .missing

/-- The records of one collection. -/
def ContentDatabase.part (db : ContentDatabase) : PartName → List Record
  | .original => db.original_content
  | .aiGen => db.ai_generated
  | .revs => db.reviews
  | .finals => db.final_versions

/-- Replace the records of one collection. -/
def ContentDatabase.setPart (db : ContentDatabase) :
    PartName → List Record → ContentDatabase
  | .original, l => { db with original_content := l }
  | .aiGen, l => { db with ai_generated := l }
  | .revs, l => { db with reviews := l }
  | .finals, l => { db with final_versions := l }

/-- Lean model of `ContentDatabase.get_content_by_id` (src/db.py:169-196):
the `{id, content, metadata}` dictionary the function rebuilds is exactly a
`Record`. An unknown collection name returns `None` (either via the
`if not collection` guard or via the caught `AttributeError`); a missing id
yields empty result lists from ChromaDB and falls through to `return None`. -/
def ContentDatabase.get_content_by_id (db : ContentDatabase) (content_id : Nat)
    (collection_name : String) : Option Record :=
  match getattr_collection collection_name with
  | .missing => none
  | .nonColl => none
  | .coll p => (db.part p).find? (fun r => r.id == content_id)

/-- Lean model of `collection.get(where={key: value})`: the records whose
metadata field `key` equals `value`, in stored order. -/
def getWhere (records : List Record) (key : String) (v : MetaVal) : List Record :=
  records.filter (fun r => r.metadata.lookup key == some v)

/-- Lean model of `ContentDatabase.search_content` (src/db.py:198-234).
ChromaDB orders `query` results by embedding distance; that ranking lives
outside this repository and is abstracted as stored order. Unknown collection
names return `[]` (guard or caught `AttributeError`). -/
def ContentDatabase.search_content (db : ContentDatabase) (query : String)
    (collection_name : String) (n_results : Nat) : List Record :=
  match getattr_collection collection_name with
  | .missing => []
  | .nonColl => []
  | .coll p => (db.part p).take n_results

/-- Result of `get_content_history` (src/db.py:246-251): the dictionary with
keys `original`, `ai_versions`, `reviews`, `final_version`. -/
structure ContentHistory where
  original : Option Record
  ai_versions : List Record
  reviews : List Record
  final_version : Option Record
deriving DecidableEq, Repr

/-- Lean model of `ContentDatabase.get_content_history` (src/db.py:236-305):
original by exact id; AI versions filtered by `original_id == original_id`;
reviews filtered by `content_id == original_id` (a direct match only — no
transitive walk through drafts); the final version is entry `[0]` of the
records whose `content_id` matches, when any exist. -/
def ContentDatabase.get_content_history (db : ContentDatabase)
    (original_id : Nat) : ContentHistory :=
  { original := db.get_content_by_id original_id "original_content"
    ai_versions := getWhere db.ai_generated "original_id" (.nat original_id)
    reviews := getWhere db.reviews "content_id" (.nat original_id)
    final_version :=
      (getWhere db.final_versions "content_id" (.nat original_id)).head? }

/-- Lean model of `ContentDatabase.delete_content` (src/db.py:307-329).
ChromaDB `collection.delete(ids=[...])` removes matching records and does not
raise when the id is absent, so the `try` body always completes and the
function returns `True` for any name resolving to a collection; unknown names
return `False` (guard or caught `AttributeError`). -/
def ContentDatabase.delete_content (db : ContentDatabase) (content_id : Nat)
    (collection_name : String) : ContentDatabase × Bool :=
  match getattr_collection collection_name with
  | .missing => (db, false)
  | .nonColl => (db, false)
  | .coll p =>
      (db.setPart p ((db.part p).filter (fun r => r.id != content_id)), true)

/-- One human decision consumed by one pass of `_human_review_loop`
(src/main.py:189-255), together with the outcomes of the external calls made
while handling it:
* `cancel confirmed` — the `cancel` choice plus the answer to the
  confirmation prompt (src/main.py:200);
* `edit text` — the text typed at the edit prompt (src/main.py:209), possibly
  empty;
* `regenerate spin` — `some s` when `writer.spin_chapter` returns `s`,
  `none` when the call raises (caught at src/main.py:236-237; unreachable
  through the real writer, whose own handler at src/ai_agents.py:62-64 falls
  back to the input, but the loop handles it);
* `review improved` — `some s` when the AI review succeeds, the human
  confirms applying suggestions, and `suggest_improvements` returns `s`;
  `none` for every path that leaves the draft unchanged (review call raised,
  or suggestions declined). -/
inductive Decision where
  | approve
  | cancel (confirmed : Bool)
  | edit (text : String)
  | regenerate (spin : Option String)
  | review (improved : Option String)
deriving DecidableEq, Repr

def Decision.isRegenerate : Decision → Bool
  | .regenerate _ => true
  | _ => false

/-- A decision keeps the loop running (it is neither `approve` nor a confirmed
`cancel`, the two choices that return from `_human_review_loop`). -/
def Decision.continuing : Decision → Bool
  | .approve => false
  | .cancel confirmed => !confirmed
  | _ => true

/-- Truthiness of Python `edited_content.strip()` (src/main.py:210), phrased
as its negation: the stripped string is empty exactly when every character of
the input is whitespace. Modelled on the character list so that concrete
instances evaluate by kernel reduction. -/
def stripIsEmpty (s : String) : Bool := s.toList.all Char.isWhitespace

/-- Outcome of one pass of the body of the `while` in `_human_review_loop`:
either the loop keeps presenting (with the next draft, counter and database),
or it returns the approved content, or it returns `None` after a confirmed
cancel. -/
inductive StepOut where
  | next (current_content : String) (iteration : Nat) (db : ContentDatabase)
  | approved (content : String) (db : ContentDatabase)
  | cancelled (db : ContentDatabase)
deriving DecidableEq, Repr

/-- Lean model of one pass of the body of `_human_review_loop`
(src/main.py:182-257), from the prompt through the unconditional
`iteration += 1` at src/main.py:257. The only path that skips the increment
without returning is `regenerate` when AI is unavailable, whose `continue`
(src/main.py:219) re-prompts with the same counter. A regenerated draft is
stored with `version=iteration` when `ai_id` is set (src/main.py:228-231). -/
def humanReviewStep (ai_available : Bool) (original_id : Nat)
    (ai_id : Option Nat) (style tone : String) (current_content : String)
    (iteration : Nat) (db : ContentDatabase) (d : Decision) : StepOut :=
  match d with
  | .approve => .approved current_content db
  | .cancel confirmed =>
      if confirmed then .cancelled db
      else .next current_content (iteration + 1) db
  | .edit text =>
      if stripIsEmpty text then .next current_content (iteration + 1) db
      else .next text (iteration + 1) db
  | .regenerate spin =>
      if ai_available then
        match spin with
        | none => .next current_content (iteration + 1) db
        | some c =>
            match ai_id with
            | some _ =>
                let s := db.store_ai_generated_content original_id c style tone iteration
                .next c (iteration + 1) s.2
            | none => .next c (iteration + 1) db
      else .next current_content iteration db
  | .review improved =>
      if ai_available then .next (improved.getD current_content) (iteration + 1) db
      else .next current_content (iteration + 1) db

/-- Terminal observation of `_human_review_loop`: the Python function returns
`current_content` on approval, `None` on confirmed cancel, and
`current_content` again once `iteration` exceeds `max_iterations`
(src/main.py:259-260); `awaitingDecision` marks the state in which the loop
is blocked at the prompt and the supplied decision list is exhausted. -/
inductive LoopResult where
  | approved (content : String)
  | cancelled
  | maxIterationsReached (content : String)
  | awaitingDecision (content : String) (iteration : Nat)
deriving DecidableEq, Repr

/-- Result of running the review loop on a list of decisions: the terminal
observation, the database afterwards, and the decisions never consumed. -/
structure LoopOutcome where
  result : LoopResult
  db : ContentDatabase
  remaining : List Decision
deriving DecidableEq, Repr

/-- Lean model of the `while iteration <= max_iterations` loop of
`_human_review_loop` (src/main.py:182-260), consuming one `Decision` per
pass. The bound is rechecked before every pass, exactly like the `while`
condition. -/
def humanReviewLoopAux (ai_available : Bool) (max_iterations original_id : Nat)
    (ai_id : Option Nat) (style tone : String) :
    String → Nat → ContentDatabase → List Decision → LoopOutcome
  | current_content, iteration, db, [] =>
      if max_iterations < iteration then
        ⟨.maxIterationsReached current_content, db, []⟩
      else ⟨.awaitingDecision current_content iteration, db, []⟩
  | current_content, iteration, db, d :: rest =>
      if max_iterations < iteration then
        ⟨.maxIterationsReached current_content, db, d :: rest⟩
      else
        match humanReviewStep ai_available original_id ai_id style tone
            current_content iteration db d with
        | .approved c db1 => ⟨.approved c, db1, rest⟩
        | .cancelled db1 => ⟨.cancelled, db1, rest⟩
        | .next c i db1 =>
            humanReviewLoopAux ai_available max_iterations original_id ai_id
              style tone c i db1 rest

/-- src/main.py:179-180: `iteration = 1`, `max_iterations = 5`. -/
def defaultMaxIterations : Nat := 5

/-- Lean model of `_human_review_loop` as called by `run_workflow`
(src/main.py:104-111, 174-180): iteration starts at 1 and the bound is 5. -/
def humanReviewLoop (ai_available : Bool) (original_id : Nat)
    (ai_id : Option Nat) (style tone ai_content : String)
    (db : ContentDatabase) (decisions : List Decision) : LoopOutcome :=
  humanReviewLoopAux ai_available defaultMaxIterations original_id ai_id
    style tone ai_content 1 db decisions

/-- Outcome of the call `self.db.store_final_version(...)` at
src/main.py:153-157, with the persistence layer's behaviour as an input:
either it returns the new id and database, or the persistence layer raises
and the exception propagates out of `store_final_version` (src/db.py:137-167
contains no handler). -/
inductive StoreFinalCall where
  | ok (final_id : Nat) (db : ContentDatabase)
  | raised
deriving DecidableEq, Repr

def store_final_version_call (db : ContentDatabase) (content_id : Nat)
    (final_content : String) (requirements : Option String)
    (persistence_fails : Bool) : StoreFinalCall :=
  if persistence_fails then .raised
  else
    let s := db.store_final_version content_id final_content requirements
    .ok s.1 s.2

/-- What Step 5 of `run_workflow` does for the caller. The constructor
`propagatedStorageError` exists so the specified behaviour (a persistence
failure re-raised to the workflow caller as a `StorageError`) is statable;
nothing in the repository produces it — there is no `StorageError` type and
no `raise` in `run_workflow`. -/
inductive Step5Result where
  | completed (final_id : Nat) (db : ContentDatabase)
  | propagatedStorageError
  | unboundLocalError
deriving DecidableEq, Repr

/-- Lean model of Step 5 of `run_workflow` (src/main.py:150-172): the
`try` at src/main.py:152 calls `store_final_version`; the
`except Exception` at src/main.py:163-164 catches any persistence failure
and only prints it; control then reaches the `return` at src/main.py:167-172,
whose dictionary reads the local `final_id` that was never assigned, so the
run dies with `UnboundLocalError` — not with a `StorageError`. -/
def runWorkflowStoreFinal (db : ContentDatabase) (original_id : Nat)
    (finalized_content : String) (requirements : Option String)
    (persistence_fails : Bool) : Step5Result :=
  match store_final_version_call db original_id finalized_content requirements
      persistence_fails with
  | .ok final_id db1 => .completed final_id db1
  | .raised => .unboundLocalError

/-- Draft content after a continuing decision, mirroring the assignments to
`current_content` in the loop body for `ai_available = true`. -/
def nextContent (current_content : String) : Decision → String
  | .approve => current_content
  | .cancel _ => current_content
  | .edit text => if stripIsEmpty text then current_content else text
  | .regenerate spin => spin.getD current_content
  | .review improved => improved.getD current_content

/-- The `version` metadata field of a stored record (0 when absent — every
record of `ai_generated` carries one). -/
def versionOf (r : Record) : Nat :=
  match r.metadata.lookup "version" with
  | some (.nat v) => v
  | _ => 0

/-- Version numbers of the drafts linked to one original, in stored order:
what `history(originalId).ai_versions` exposes. -/
def draftVersions (db : ContentDatabase) (original_id : Nat) : List Nat :=
  (getWhere db.ai_generated "original_id" (.nat original_id)).map versionOf

/-! ### Helper lemmas -/

/-- With AI available, every continuing decision moves the loop to the next
pass: the draft becomes `nextContent`, the counter advances by one, and only
a successful regenerate (with `ai_id` set) changes the database. -/
lemma humanReviewStep_continuing (original_id : Nat) (ai_id : Option Nat)
    (style tone current_content : String) (iteration : Nat)
    (db : ContentDatabase) (d : Decision) (h : d.continuing = true) :
    ∃ db1, humanReviewStep true original_id ai_id style tone current_content
        iteration db d = .next (nextContent current_content d) (iteration + 1) db1 := by
  cases d with
  | approve => simp [Decision.continuing] at h
  | cancel confirmed =>
      cases confirmed with
      | false => exact ⟨db, rfl⟩
      | true => simp [Decision.continuing] at h
  | edit text =>
      by_cases ht : stripIsEmpty text = true <;>
        exact ⟨db, by simp [humanReviewStep, nextContent, ht]⟩
  | regenerate spin =>
      cases spin with
      | none => exact ⟨db, rfl⟩
      | some c =>
          cases ai_id with
          | none => exact ⟨db, rfl⟩
          | some a => exact ⟨_, rfl⟩
  | review improved => exact ⟨db, rfl⟩

/-- Running the loop on continuing decisions up to an `approve`, with enough
iteration budget left, approves the fold of the decisions over the draft and
leaves the rest of the decisions unconsumed. -/
lemma loopAux_approved (max_iterations original_id : Nat) (ai_id : Option Nat)
    (style tone : String) :
    ∀ (ps rest : List Decision) (current_content : String) (iteration : Nat)
      (db : ContentDatabase),
      (∀ d ∈ ps, d.continuing = true) → iteration + ps.length ≤ max_iterations →
      (humanReviewLoopAux true max_iterations original_id ai_id style tone
          current_content iteration db (ps ++ .approve :: rest)).result
        = .approved (List.foldl nextContent current_content ps) ∧
      (humanReviewLoopAux true max_iterations original_id ai_id style tone
          current_content iteration db (ps ++ .approve :: rest)).remaining = rest := by
  intro ps
  induction ps with
  | nil =>
      intro rest current iteration db _ hle
      have hni : ¬ max_iterations < iteration := by omega
      simp [humanReviewLoopAux, hni, humanReviewStep]
  | cons d ps ih =>
      intro rest current iteration db hcont hle
      have hni : ¬ max_iterations < iteration := by
        simp only [List.length_cons] at hle; omega
      obtain ⟨db1, hstep⟩ := humanReviewStep_continuing original_id ai_id style
        tone current iteration db d (hcont d (by simp))
      have hrec := ih rest (nextContent current d) (iteration + 1) db1
        (fun x hx => hcont x (by simp [hx]))
        (by simp only [List.length_cons] at hle; omega)
      simpa [humanReviewLoopAux, hni, hstep] using hrec

/-- Running the loop on at least as many continuing decisions as the
remaining iteration budget exhausts the budget and returns the fold of the
consumed decisions as the last-seen draft. -/
lemma loopAux_maxed (max_iterations original_id : Nat) (ai_id : Option Nat)
    (style tone : String) :
    ∀ (ds : List Decision) (current_content : String) (iteration : Nat)
      (db : ContentDatabase),
      (∀ d ∈ ds, d.continuing = true) → iteration ≤ max_iterations + 1 →
      max_iterations + 1 - iteration ≤ ds.length →
      (humanReviewLoopAux true max_iterations original_id ai_id style tone
          current_content iteration db ds).result
        = .maxIterationsReached
            (List.foldl nextContent current_content
              (ds.take (max_iterations + 1 - iteration))) := by
  intro ds
  induction ds with
  | nil =>
      intro current iteration db _ h1 h2
      have hlt : max_iterations < iteration := by
        simp only [List.length_nil] at h2; omega
      simp [humanReviewLoopAux, hlt]
  | cons d rest ih =>
      intro current iteration db hcont h1 h2
      by_cases hlt : max_iterations < iteration
      · have hz : max_iterations + 1 - iteration = 0 := by omega
        simp [humanReviewLoopAux, hlt, hz]
      · obtain ⟨db1, hstep⟩ := humanReviewStep_continuing original_id ai_id
          style tone current iteration db d (hcont d (by simp))
        have hk : max_iterations + 1 - iteration = (max_iterations - iteration) + 1 := by
          omega
        have hrec := ih (nextContent current d) (iteration + 1) db1
          (fun x hx => hcont x (by simp [hx])) (by omega)
          (by simp only [List.length_cons] at h2; omega)
        have hk2 : max_iterations + 1 - (iteration + 1) = max_iterations - iteration := by
          omega
        rw [hk2] at hrec
        rw [hk, List.take_succ_cons, List.foldl_cons]
        simpa [humanReviewLoopAux, hlt, hstep] using hrec

/-- Storing a regenerated draft appends exactly its version number to the
version list visible in the history of its original. -/
lemma store_ai_generated_draftVersions (db : ContentDatabase)
    (original_id : Nat) (content style tone : String) (version : Nat) :
    draftVersions (db.store_ai_generated_content original_id content style
        tone version).2 original_id
      = draftVersions db original_id ++ [version] := by
  simp [draftVersions, getWhere, ContentDatabase.store_ai_generated_content,
    List.filter_append, versionOf, List.lookup]

/-- The loop only ever appends draft versions, and the versions it appends
are strictly increasing and bounded below by the iteration counter at entry
(each successful regenerate stores `version=iteration`, and with AI available
the counter advances every pass). -/
lemma loopAux_draftVersions (max_iterations original_id aid : Nat)
    (style tone : String) :
    ∀ (ds : List Decision) (current_content : String) (iteration : Nat)
      (db : ContentDatabase),
      ∃ L, draftVersions (humanReviewLoopAux true max_iterations original_id
              (some aid) style tone current_content iteration db ds).db original_id
            = draftVersions db original_id ++ L ∧
          List.Pairwise (· < ·) L ∧ ∀ v ∈ L, iteration ≤ v := by
  intro ds
  induction ds with
  | nil =>
      intro current iteration db
      refine ⟨[], ?_, by simp, by simp⟩
      by_cases h : max_iterations < iteration <;> simp [humanReviewLoopAux, h]
  | cons d rest ih =>
      intro current iteration db
      by_cases hlt : max_iterations < iteration
      · exact ⟨[], by simp [humanReviewLoopAux, hlt], by simp, by simp⟩
      · cases d with
        | approve =>
            exact ⟨[], by simp [humanReviewLoopAux, hlt, humanReviewStep],
              by simp, by simp⟩
        | cancel confirmed =>
            cases confirmed with
            | true =>
                exact ⟨[], by simp [humanReviewLoopAux, hlt, humanReviewStep],
                  by simp, by simp⟩
            | false =>
                obtain ⟨L, hL, hp, hb⟩ := ih current (iteration + 1) db
                refine ⟨L, ?_, hp, fun v hv => by have := hb v hv; omega⟩
                simpa [humanReviewLoopAux, hlt, humanReviewStep] using hL
        | edit text =>
            by_cases ht : stripIsEmpty text = true
            · obtain ⟨L, hL, hp, hb⟩ := ih current (iteration + 1) db
              refine ⟨L, ?_, hp, fun v hv => by have := hb v hv; omega⟩
              simpa [humanReviewLoopAux, hlt, humanReviewStep, ht] using hL
            · obtain ⟨L, hL, hp, hb⟩ := ih text (iteration + 1) db
              refine ⟨L, ?_, hp, fun v hv => by have := hb v hv; omega⟩
              simpa [humanReviewLoopAux, hlt, humanReviewStep, ht] using hL
        | regenerate spin =>
            cases spin with
            | none =>
                obtain ⟨L, hL, hp, hb⟩ := ih current (iteration + 1) db
                refine ⟨L, ?_, hp, fun v hv => by have := hb v hv; omega⟩
                simpa [humanReviewLoopAux, hlt, humanReviewStep] using hL
            | some c =>
                obtain ⟨L, hL, hp, hb⟩ := ih c (iteration + 1)
                  (db.store_ai_generated_content original_id c style tone iteration).2
                refine ⟨iteration :: L, ?_, ?_, ?_⟩
                · rw [show (iteration :: L) = [iteration] ++ L from rfl,
                    ← List.append_assoc]
                  rw [← store_ai_generated_draftVersions db original_id c style
                    tone iteration]
                  simpa [humanReviewLoopAux, hlt, humanReviewStep] using hL
                · exact List.pairwise_cons.2
                    ⟨fun v hv => by have := hb v hv; omega, hp⟩
                · intro v hv
                  rcases List.mem_cons.1 hv with h | h
                  · omega
                  · have := hb v h; omega
        | review improved =>
            obtain ⟨L, hL, hp, hb⟩ := ih (improved.getD current) (iteration + 1) db
            refine ⟨L, ?_, hp, fun v hv => by have := hb v hv; omega⟩
            simpa [humanReviewLoopAux, hlt, humanReviewStep] using hL

/-! ### Claim theorems -/

/-- C1: the claim says `history(originalId).reviews` includes every review
transitively linked to the original — in particular a review stored against a
draft id whose draft references the original. The code filters reviews by a
direct `content_id == original_id` match only (src/db.py:276-278), while the
workflow stores its review against the draft id (src/main.py:128): storing
original → draft (lineage to the original) → review (against the draft id)
yields a history whose `reviews` list is empty even though the review record
exists and is transitively linked through the draft. -/
theorem C1_reviews_not_transitive :
    ((((ContentDatabase.empty.store_original_content
          ⟨"https://x/1", "T", "Hello world", "s.png"⟩).2.store_ai_generated_content
            0 "draft one" "modern" "engaging" 1).2.store_review 1
            ⟨8, 9, 8, 7, some "Good"⟩).2.get_content_history 0).reviews = [] ∧
    (getWhere (((ContentDatabase.empty.store_original_content
          ⟨"https://x/1", "T", "Hello world", "s.png"⟩).2.store_ai_generated_content
            0 "draft one" "modern" "engaging" 1).2.store_review 1
            ⟨8, 9, 8, 7, some "Good"⟩).2.reviews
        "content_id" (.nat 1)).length = 1 ∧
    (getWhere (((ContentDatabase.empty.store_original_content
          ⟨"https://x/1", "T", "Hello world", "s.png"⟩).2.store_ai_generated_content
            0 "draft one" "modern" "engaging" 1).2.store_review 1
            ⟨8, 9, 8, 7, some "Good"⟩).2.ai_generated
        "original_id" (.nat 0)).length = 1 := by
  decide

/-- C2 (counterexample): the claim says a cancel that is not confirmed and an
edit with empty text do not advance the iteration counter. In the code both
fall through to the unconditional `iteration += 1` at src/main.py:257: from
iteration 1 each produces iteration 2. -/
theorem C2_counterexample :
    humanReviewStep true 0 none "modern" "engaging" "c" 1 ContentDatabase.empty
        (.cancel false) = .next "c" 2 ContentDatabase.empty ∧
    humanReviewStep true 0 none "modern" "engaging" "c" 1 ContentDatabase.empty
        (.edit "") = .next "c" 2 ContentDatabase.empty ∧
    (2 : Nat) ≠ 1 := by
  decide

/-- C2 (amended): whenever a pass of the review loop continues presenting,
the iteration counter advances by exactly one — including for a cancel that
is not confirmed and for an empty edit — except for a regenerate chosen while
AI is unavailable, whose `continue` (src/main.py:219) re-prompts with the
counter unchanged. -/
theorem C2_iteration_advance (ai_available : Bool) (original_id : Nat)
    (ai_id : Option Nat) (style tone current_content : String)
    (iteration : Nat) (db : ContentDatabase) (d : Decision) (c : String)
    (i : Nat) (db1 : ContentDatabase)
    (h : humanReviewStep ai_available original_id ai_id style tone
        current_content iteration db d = .next c i db1) :
    i = if ai_available = false ∧ d.isRegenerate = true then iteration
        else iteration + 1 := by
  cases d with
  | approve => simp [humanReviewStep] at h
  | cancel confirmed =>
      cases confirmed with
      | true => simp [humanReviewStep] at h
      | false =>
          simp only [humanReviewStep, if_neg (by simp : ¬ (false = true)),
            StepOut.next.injEq] at h
          simp [Decision.isRegenerate, h.2.1]
  | edit text =>
      by_cases ht : stripIsEmpty text = true <;>
        simp only [humanReviewStep, ht, Bool.false_eq_true, if_true, if_false,
          reduceIte, StepOut.next.injEq] at h <;>
        simp [Decision.isRegenerate, h.2.1]
  | regenerate spin =>
      cases ai_available with
      | false =>
          simp only [humanReviewStep, Bool.false_eq_true, if_false,
            StepOut.next.injEq] at h
          simp [Decision.isRegenerate, h.2.1]
      | true =>
          cases spin with
          | none =>
              simp only [humanReviewStep, if_true, reduceIte,
                StepOut.next.injEq] at h
              simp [Decision.isRegenerate, h.2.1]
          | some s =>
              cases ai_id with
              | none =>
                  simp only [humanReviewStep, if_true, reduceIte,
                    StepOut.next.injEq] at h
                  simp [Decision.isRegenerate, h.2.1]
              | some a =>
                  simp only [humanReviewStep, if_true, reduceIte,
                    StepOut.next.injEq] at h
                  simp [Decision.isRegenerate, h.2.1]
  | review improved =>
      cases ai_available <;>
        simp only [humanReviewStep, Bool.false_eq_true, if_false, if_true,
          reduceIte, StepOut.next.injEq] at h <;>
        simp [Decision.isRegenerate, h.2.1]

/-- C2 (witness): the amended statement instantiated at a concrete
cancel-not-confirmed pass starting from iteration 1. -/
theorem C2_iteration_advance_witness :
    (2 : Nat) = if (true = false ∧ (Decision.cancel false).isRegenerate = true)
        then 1 else 1 + 1 :=
  C2_iteration_advance true 0 none "modern" "engaging" "c" 1
    ContentDatabase.empty (.cancel false) "c" 2 ContentDatabase.empty (by decide)

/-- C3 (counterexample): the claim says a failure while storing the final
version is surfaced to the caller of the workflow as a `StorageError`. In the
code the `except Exception` at src/main.py:163-164 catches the persistence
failure and only prints it; execution then reaches the `return` at
src/main.py:167-172, which reads the never-assigned local `final_id`, so the
run dies with `UnboundLocalError` — the storage failure is never propagated
as a `StorageError` (no such type exists in the repository). -/
theorem C3_counterexample :
    runWorkflowStoreFinal ContentDatabase.empty 0 "final text" none true
      = .unboundLocalError ∧
    runWorkflowStoreFinal ContentDatabase.empty 0 "final text" none true
      ≠ .propagatedStorageError := by
  decide

/-- C3 (amended): `store_final_version` itself has no handler, so a
persistence failure propagates out of the database layer; but `run_workflow`
catches it locally at src/main.py:163, logs it, and never re-raises it as a
`StorageError` — the run instead fails with an `UnboundLocalError` when the
result dictionary references the unassigned `final_id`. -/
theorem C3_store_failure_caught (db : ContentDatabase) (original_id : Nat)
    (finalized_content : String) (requirements : Option String) :
    store_final_version_call db original_id finalized_content requirements true
      = .raised ∧
    runWorkflowStoreFinal db original_id finalized_content requirements true
      = .unboundLocalError := by
  exact ⟨rfl, rfl⟩

/-- C4 (counterexample): the claim says at most `maxIterations` non-approving
decisions followed by `approve` end in the Approved state. With the code's
bound of 5 (src/main.py:180), five regenerates followed by `approve` exhaust
the budget first: the loop returns MaxIterationsReached with the fifth draft
and never consumes the `approve`. -/
theorem C4_counterexample :
    (humanReviewLoop true 0 (some 1) "modern" "engaging" "c0"
        ContentDatabase.empty
        [.regenerate (some "c1"), .regenerate (some "c2"),
         .regenerate (some "c3"), .regenerate (some "c4"),
         .regenerate (some "c5"), .approve]).result
      = .maxIterationsReached "c5" ∧
    (humanReviewLoop true 0 (some 1) "modern" "engaging" "c0"
        ContentDatabase.empty
        [.regenerate (some "c1"), .regenerate (some "c2"),
         .regenerate (some "c3"), .regenerate (some "c4"),
         .regenerate (some "c5"), .approve]).result
      ≠ .approved "c5" ∧
    (humanReviewLoop true 0 (some 1) "modern" "engaging" "c0"
        ContentDatabase.empty
        [.regenerate (some "c1"), .regenerate (some "c2"),
         .regenerate (some "c3"), .regenerate (some "c4"),
         .regenerate (some "c5"), .approve]).remaining
      = [.approve] := by
  decide

/-- C4 (amended): with AI available, (1) any sequence of fewer than
`maxIterations` continuing (non-approving, non-terminating) decisions
followed by `approve` ends in the Approved state carrying the fold of those
decisions over the draft, with the iteration count still within the bound;
and (2) any sequence of at least `maxIterations` continuing decisions
exhausts the budget and returns MaxIterationsReached with the last-seen
draft — the loop being a total function, no exception is possible. A
sequence of exactly `maxIterations` non-approving decisions followed by
`approve` falls under (2), not (1). -/
theorem C4_loop_bounded :
    (∀ (max_iterations original_id : Nat) (ai_id : Option Nat)
        (style tone current_content : String) (db : ContentDatabase)
        (ps rest : List Decision),
        (∀ d ∈ ps, d.continuing = true) → ps.length < max_iterations →
        (humanReviewLoopAux true max_iterations original_id ai_id style tone
            current_content 1 db (ps ++ .approve :: rest)).result
          = .approved (List.foldl nextContent current_content ps) ∧
        (humanReviewLoopAux true max_iterations original_id ai_id style tone
            current_content 1 db (ps ++ .approve :: rest)).remaining = rest) ∧
    (∀ (max_iterations original_id : Nat) (ai_id : Option Nat)
        (style tone current_content : String) (db : ContentDatabase)
        (ds : List Decision),
        (∀ d ∈ ds, d.continuing = true) → max_iterations ≤ ds.length →
        (humanReviewLoopAux true max_iterations original_id ai_id style tone
            current_content 1 db ds).result
          = .maxIterationsReached
              (List.foldl nextContent current_content
                (ds.take max_iterations))) := by
  constructor
  · intro max_iterations original_id ai_id style tone current_content db ps
      rest hcont hlen
    exact loopAux_approved max_iterations original_id ai_id style tone ps rest
      current_content 1 db hcont (by omega)
  · intro max_iterations original_id ai_id style tone current_content db ds
      hcont hlen
    have := loopAux_maxed max_iterations original_id ai_id style tone ds
      current_content 1 db hcont (by omega) (by omega)
    simpa using this

/-- C4 (witness): part (1) instantiated with bound 2 and one edit before the
approve; part (2) instantiated with bound 1 and a single unconfirmed cancel. -/
theorem C4_loop_bounded_witness :
    ((humanReviewLoopAux true 2 0 none "modern" "engaging" "c" 1
        ContentDatabase.empty ([Decision.edit "x"] ++ .approve :: [])).result
      = .approved (List.foldl nextContent "c" [Decision.edit "x"]) ∧
     (humanReviewLoopAux true 2 0 none "modern" "engaging" "c" 1
        ContentDatabase.empty ([Decision.edit "x"] ++ .approve :: [])).remaining
      = []) ∧
    (humanReviewLoopAux true 1 0 none "modern" "engaging" "c" 1
        ContentDatabase.empty [Decision.cancel false]).result
      = .maxIterationsReached
          (List.foldl nextContent "c" ([Decision.cancel false].take 1)) :=
  ⟨C4_loop_bounded.1 2 0 none "modern" "engaging" "c" ContentDatabase.empty
      [Decision.edit "x"] [] (by decide) (by decide),
   C4_loop_bounded.2 1 0 none "modern" "engaging" "c" ContentDatabase.empty
      [Decision.cancel false] (by decide) (by decide)⟩

/-- C5 (counterexample): the claim says draft versions are strictly
increasing starting at 1 and N regenerate-drafts give a history of length N.
The initial draft is stored with version 1 (src/main.py:85-87, default
`version=1`), and a regenerate during iteration 1 stores another draft with
`version=iteration`, i.e. 1 again (src/main.py:229-231): after one
regenerate the history holds two drafts with versions `[1, 1]` — length 2
for N = 1, and not strictly increasing. -/
theorem C5_counterexample :
    let s1 := ContentDatabase.empty.store_original_content
      ⟨"https://x/1", "T", "Hello world", "s.png"⟩
    let s2 := s1.2.store_ai_generated_content s1.1 "draft one" "modern" "engaging" 1
    let out := humanReviewLoop true s1.1 (some s2.1) "modern" "engaging"
      "draft one" s2.2 [.regenerate (some "draft two"), .approve]
    draftVersions out.db s1.1 = [1, 1] ∧
    (out.db.get_content_history s1.1).ai_versions.length = 2 ∧
    ¬ List.Pairwise (· < ·) (draftVersions out.db s1.1) := by
  refine ⟨by decide, by decide, by decide⟩

/-- C5 (amended): each successful regenerate stores one draft whose version
is the iteration number at which it occurred, so with AI available the
versions appended by the loop are strictly increasing; but they start at the
current iteration, which can be 1 — duplicating the initial draft's version
1 — so the full version sequence in `history(originalId)` (initial draft
plus the N regenerate-drafts, length N+1) is nondecreasing, not strictly
increasing. -/
theorem C5_versions_nondecreasing (max_iterations original_id aid : Nat)
    (style tone current_content : String) (db : ContentDatabase)
    (ds : List Decision)
    (h : draftVersions db original_id = [1]) :
    List.Pairwise (· ≤ ·)
      (draftVersions (humanReviewLoopAux true max_iterations original_id
          (some aid) style tone current_content 1 db ds).db original_id) := by
  obtain ⟨L, hL, hp, hb⟩ := loopAux_draftVersions max_iterations original_id
    aid style tone ds current_content 1 db
  rw [hL, h, List.singleton_append]
  exact List.pairwise_cons.2
    ⟨fun v hv => hb v hv, hp.imp (fun hx => Nat.le_of_lt hx)⟩

/-- C5 (witness): the amended statement at the concrete run of the
counterexample — original stored, initial draft stored with version 1, one
regenerate during iteration 1. -/
theorem C5_versions_nondecreasing_witness :
    List.Pairwise (· ≤ ·)
      (draftVersions (humanReviewLoopAux true 5 0 (some 1) "modern" "engaging"
          "draft one" 1
          ((ContentDatabase.empty.store_original_content
            ⟨"https://x/1", "T", "Hello world", "s.png"⟩).2.store_ai_generated_content
              0 "draft one" "modern" "engaging" 1).2
          [.regenerate (some "draft two"), .approve]).db 0) :=
  C5_versions_nondecreasing 5 0 1 "modern" "engaging" "draft one"
    ((ContentDatabase.empty.store_original_content
      ⟨"https://x/1", "T", "Hello world", "s.png"⟩).2.store_ai_generated_content
        0 "draft one" "modern" "engaging" 1).2
    [.regenerate (some "draft two"), .approve] (by decide)

/-- C6: with bound 2 and decisions [regenerate, regenerate, approve], the
loop runs regenerate at iterations 1 and 2, the counter reaches 3, the
`while` guard fails, and the loop returns MaxIterationsReached carrying the
second regenerated draft; the `approve` is never consumed. -/
theorem C6_scenario :
    (humanReviewLoopAux true 2 0 (some 1) "modern" "engaging" "c0" 1
        ContentDatabase.empty
        [.regenerate (some "c1"), .regenerate (some "c2"), .approve]).result
      = .maxIterationsReached "c2" ∧
    (humanReviewLoopAux true 2 0 (some 1) "modern" "engaging" "c0" 1
        ContentDatabase.empty
        [.regenerate (some "c1"), .regenerate (some "c2"), .approve]).remaining
      = [.approve] := by
  decide

/-- C7 (counterexample): the claim says deleting a nonexistent id returns
false. On an empty database, deleting id 0 from `original_content` returns
True: `collection.delete` does not report absence and the code returns True
unconditionally after it (src/db.py:324-326). -/
theorem C7_counterexample :
    (ContentDatabase.empty.delete_content 0 "original_content").2 = true ∧
    ContentDatabase.empty.original_content = [] := by
  decide

/-- C7 (amended): `delete(partition, id)` returns True exactly when the
partition name resolves to one of the four collections — independent of
whether a record with that id existed; unknown names return False. -/
theorem C7_delete_returns_collection_validity (db : ContentDatabase)
    (content_id : Nat) (collection_name : String) :
    (db.delete_content content_id collection_name).2 = true ↔
      collection_name ∈ collectionNames := by
  unfold ContentDatabase.delete_content getattr_collection
  split_ifs with h1 h2 h3 h4 h5 <;>
    simp_all [collectionNames]

/-- C8: storing a record and looking up the returned id in the same
partition returns the stored primary text body unchanged. The freshness of
generated ids (uuid4, modelled by the counter and `wf`) guarantees the new
id cannot collide with an existing record. -/
theorem C8_roundtrip (db : ContentDatabase) (content_data : ContentData)
    (h : db.wf) :
    ((db.store_original_content content_data).2.get_content_by_id
        (db.store_original_content content_data).1 "original_content").map
      Record.document = some content_data.text_content := by
  have hnone : db.original_content.find? (fun r => r.id == db.nextId) = none := by
    refine List.find?_eq_none.2 (fun r hr => ?_)
    have hmem : r.id ∈ db.allIds := by
      unfold ContentDatabase.allIds
      exact List.mem_map_of_mem Record.id (by simp [hr])
    have := h r.id hmem
    simp only [beq_iff_eq]
    omega
  simp [ContentDatabase.get_content_by_id, getattr_collection,
    ContentDatabase.store_original_content, ContentDatabase.part,
    List.find?_append, hnone]

/-- C8 (witness): the round trip at a concrete record on the empty store. -/
theorem C8_roundtrip_witness :
    ((ContentDatabase.empty.store_original_content
        ⟨"https://x/1", "T", "body", "s.png"⟩).2.get_content_by_id
        (ContentDatabase.empty.store_original_content
          ⟨"https://x/1", "T", "body", "s.png"⟩).1 "original_content").map
      Record.document = some "body" :=
  C8_roundtrip ContentDatabase.empty ⟨"https://x/1", "T", "body", "s.png"⟩
    (by decide)

/-- C9: `history` exposes at most one final version by construction (it takes
entry `[0]` of the matching records, src/db.py:297-301); when two final
versions exist for the same original, the history reports the first stored
one. -/
theorem C9_single_final (db : ContentDatabase) (original_id : Nat)
    (c1 c2 : String) (req1 req2 : Option String)
    (h : getWhere db.final_versions "content_id" (.nat original_id) = []) :
    let s1 := db.store_final_version original_id c1 req1
    let s2 := s1.2.store_final_version original_id c2 req2
    (getWhere s2.2.final_versions "content_id" (.nat original_id)).length = 2 ∧
    (s2.2.get_content_history original_id).final_version.map Record.document
      = some c1 ∧
    (s2.2.get_content_history original_id).final_version.map Record.id
      = some s1.1 := by
  intro s1 s2
  simp only [getWhere] at h
  simp [ContentDatabase.get_content_history, getWhere,
    ContentDatabase.store_final_version, List.filter_append, h,
    List.lookup, s1, s2]

/-- C9 (witness): two final versions stored against the same original on the
empty store; history reports the first. -/
theorem C9_single_final_witness :
    let s1 := ContentDatabase.empty.store_final_version 0 "final a" none
    let s2 := s1.2.store_final_version 0 "final b" none
    (getWhere s2.2.final_versions "content_id" (.nat 0)).length = 2 ∧
    (s2.2.get_content_history 0).final_version.map Record.document
      = some "final a" ∧
    (s2.2.get_content_history 0).final_version.map Record.id = some s1.1 :=
  C9_single_final ContentDatabase.empty 0 "final a" "final b" none none
    (by decide)

/-- C10: a collection name that does not name one of the four partitions
yields `none` from `get_content_by_id`, `[]` from `search_content`, and
`(db, False)` from `delete_content`; each function returns normally (the
`getattr` miss or the `AttributeError` on a non-collection attribute is
handled inside, src/db.py:180-183, 193-196, 211-214, 232-234, 318-321,
327-329). -/
theorem C10_unknown_collection (db : ContentDatabase)
    (collection_name : String) (content_id : Nat) (query : String)
    (n_results : Nat) (h : collection_name ∉ collectionNames) :
    db.get_content_by_id content_id collection_name = none ∧
    db.search_content query collection_name n_results = [] ∧
    db.delete_content content_id collection_name = (db, false) := by
  obtain ⟨e1, e2, e3, e4⟩ :
      collection_name ≠ "original_content" ∧
      collection_name ≠ "ai_generated" ∧
      collection_name ≠ "reviews" ∧
      collection_name ≠ "final_versions" := by
    simpa [collectionNames] using h
  have hattr : getattr_collection collection_name = .nonColl ∨
      getattr_collection collection_name = .missing := by
    unfold getattr_collection
    by_cases hm : collection_name ∈ otherAttrNames <;>
      simp [e1, e2, e3, e4, hm]
  rcases hattr with ha | ha <;>
    simp [ContentDatabase.get_content_by_id, ContentDatabase.search_content,
      ContentDatabase.delete_content, ha]

/-- C10 (witness): the three operations on a name that is no attribute at
all. -/
theorem C10_unknown_collection_witness :
    ContentDatabase.empty.get_content_by_id 0 "nonexistent" = none ∧
    ContentDatabase.empty.search_content "q" "nonexistent" 5 = [] ∧
    ContentDatabase.empty.delete_content 0 "nonexistent"
      = (ContentDatabase.empty, false) :=
  C10_unknown_collection ContentDatabase.empty "nonexistent" 0 "q" 5
    (by decide)

end BookPublisher
